import Mathlib

/-!
Verification development for rustdoc's macro-matcher renderer
(`src/librustdoc/clean/render_macro_matchers.rs`).

The renderer takes an already-parsed token tree (the left-hand side of a
macro-by-example rule) and produces display text: it first tries to reuse the
original source snippet verbatim (checked by re-tokenizing the snippet and
comparing structurally, ignoring spans), and otherwise synthesizes text from
the tree, inserting separating spaces according to a small finite-state
classifier over sibling token sequences.

External collaborators (the compiler's source map, the re-tokenizing parser,
the keyword predicates of `rustc_span`, and the box-based pretty-printing
substrate) live outside the rendered file; they are represented here by an
explicit context of oracle functions and by a spec-modelled interpretation of
the pretty-printer primitives.
-/

namespace RenderMacroMatchers

/-- Source spans are opaque to the renderer: only the external source-map
oracle ever inspects them.  We model a span as a natural number key. -/
abbrev Span := Nat

/-- Interned identifier/keyword text (`rustc_span::Symbol`), modelled by its
string contents. -/
abbrev Symbol := String

/-- `rustc_ast::token::BinOpToken`. -/
inductive BinOpToken
  | Plus | Minus | Star | Slash | Percent | Caret | And | Or | Shl | Shr
  deriving DecidableEq, BEq, Repr

/-- `rustc_ast::token::CommentKind`. -/
inductive CommentKind
  | Line | Block
  deriving DecidableEq, BEq, Repr

/-- `rustc_ast::AttrStyle`. -/
inductive AttrStyle
  | Outer | Inner
  deriving DecidableEq, BEq, Repr

/-- `rustc_ast::token::Delimiter`. -/
inductive Delimiter
  | Parenthesis | Brace | Bracket | Invisible
  deriving DecidableEq, BEq, Repr

/-- `rustc_ast::token::TokenKind`, restricted to the kinds that can occur
inside a parsed token tree (`OpenDelim`/`CloseDelim` are represented by the
`Delimited` tree node, `Eof` and parser-internal interpolation never appear in
a matcher).  Literal payloads are modelled by their surface text, which is all
the renderer ever uses of them. -/
inductive TokenKind
  | Eq | Lt | Le | EqEq | Ne | Ge | Gt | AndAnd | OrOr | Not | Tilde
  | BinOp (b : BinOpToken)
  | BinOpEq (b : BinOpToken)
  | At | Dot | DotDot | DotDotDot | DotDotEq
  | Comma | Semi | Colon | ModSep | RArrow | LArrow | FatArrow
  | Pound | Dollar | Question | SingleQuote
  | Literal (text : String)
  | Ident (name : Symbol) (is_raw : Bool)
  | Lifetime (name : Symbol)
  | DocComment (kind : CommentKind) (style : AttrStyle) (text : Symbol)
  deriving DecidableEq, BEq, Repr

/-- `rustc_ast::token::Token`: a kind plus its span. -/
structure Token where
  kind : TokenKind
  span : Span
  deriving DecidableEq, BEq, Repr

/-- `rustc_ast::tokenstream::Spacing`. -/
inductive Spacing
  | Alone | Joint
  deriving DecidableEq, BEq, Repr

/-- `rustc_ast::tokenstream::TokenTree`: an atomic token (with its spacing),
or a delimited group of sibling trees. -/
inductive TokenTree
  | Token (tok : Token) (spacing : Spacing)
  | Delimited (span : Span) (delim : Delimiter) (tts : List TokenTree)

/-- `rustc_ast::tokenstream::TokenStream`, modelled by the list of its trees
(the renderer only ever iterates `trees()`). -/
abbrev TokenStream := List TokenTree

/-- `TokenTree::span`: the token's span, or the whole group's span. -/
def TokenTree.span : TokenTree → Span
  | .Token tok _ => tok.span
  | .Delimited sp _ _ => sp

mutual

/-- `TokenTree::eq_unspanned`: structural equality ignoring spans (and
spacing): token kinds must agree, and groups must have equal delimiters and
pointwise `eq_unspanned` children. -/
def eqUnspanned : TokenTree → TokenTree → Bool
  | .Token tok1 _, .Token tok2 _ => tok1.kind == tok2.kind
  | .Delimited _ delim1 tts1, .Delimited _ delim2 tts2 =>
      delim1 == delim2 && eqUnspannedStream tts1 tts2
  | _, _ => false

/-- `TokenStream::eq_unspanned`: pointwise comparison of the two streams. -/
def eqUnspannedStream : List TokenTree → List TokenTree → Bool
  | [], [] => true
  | tt1 :: rest1, tt2 :: rest2 => eqUnspanned tt1 tt2 && eqUnspannedStream rest1 rest2
  | _, _ => false

end

/-- Modelled from the spec: the external collaborators of the renderer
(spec section 6), which live outside `src/`.
* `is_used_keyword`/`is_unused_keyword`: the keyword predicates of
  `rustc_span::symbol` consulted through `Ident::is_used_keyword` and
  `Ident::is_unused_keyword`; they may consult the span (edition).
* `spanToSnippet`: the source map's `span_to_snippet`, `none` on lookup
  failure.
* `reparse`: parser creation (`maybe_new_parser_from_source_str`) followed by
  `parse_all_token_trees`; `none` if either step fails, otherwise the list of
  parsed top-level trees. -/
structure Ctx where
  is_used_keyword : Symbol → Span → Bool
  is_unused_keyword : Symbol → Span → Bool
  spanToSnippet : Span → Option String
  reparse : String → Option (List TokenTree)

/-- `usually_needs_space_between_keyword_and_open_delim`: `false` for
non-keywords; for keywords, `false` exactly for `false`, `self`, `Self`,
`true`, `fn`, `pub`, `await`, and `true` for every other keyword. -/
def usually_needs_space_between_keyword_and_open_delim
    (ctx : Ctx) (symbol : Symbol) (span : Span) : Bool :=
  let is_keyword := ctx.is_used_keyword symbol span || ctx.is_unused_keyword symbol span
  if !is_keyword then
    -- An identifier that is not a keyword usually does not need a space
    -- before an open delim. For example: `f(0)` or `f[0]`.
    false
  else if symbol = "false" ∨ symbol = "self" ∨ symbol = "Self" ∨ symbol = "true" then
    -- No space after keywords that are syntactically an expression.
    false
  else if symbol = "fn" then false
  else if symbol = "pub" then false
  else if symbol = "await" then false
  else
    -- Otherwise space after keyword.
    true

/-- The classifier state of `print_tts` (its local `enum State`). -/
inductive State
  | Start
  | Dollar
  | DollarIdent
  | DollarIdentColon
  | DollarParen
  | DollarParenSep
  | Pound
  | PoundBang
  | Ident
  | Other
  deriving DecidableEq, BEq, Repr

/-- The per-sibling transition of `print_tts`: given the carried state and the
current tree, the `(needs_space, next_state)` pair, translated arm for arm
from the `match` in the loop body. -/
def classify (ctx : Ctx) (state : State) (tt : TokenTree) : Bool × State :=
  match tt with
  | .Token tok _ =>
    match state, tok.kind with
    | .Dollar, .Ident _ _ => (false, .DollarIdent)
    | .DollarIdent, .Colon => (false, .DollarIdentColon)
    | .DollarIdentColon, .Ident _ _ => (false, .Other)
    | .DollarParen, .BinOp .Plus | .DollarParen, .BinOp .Star | .DollarParen, .Question =>
        (false, .Other)
    | .DollarParen, _ => (false, .DollarParenSep)
    | .DollarParenSep, .BinOp .Plus | .DollarParenSep, .BinOp .Star => (false, .Other)
    | .Pound, .Not => (false, .PoundBang)
    | _, .Ident symbol false =>
        -- Guarded arm `(_, token::Ident(symbol, false)) if !usually_needs_...`.
        -- When the guard fails, the Rust match falls through past the
        -- `Comma`/`Semi`/`Dollar`/`Pound` arms (none of which an identifier
        -- can match) to the final catch-all.
        if !usually_needs_space_between_keyword_and_open_delim ctx symbol tok.span then
          (true, .Ident)
        else (true, .Other)
    | _, .Comma | _, .Semi => (false, .Other)
    | _, .Dollar => (true, .Dollar)
    | _, .Pound => (true, .Pound)
    | _, _ => (true, .Other)
  | .Delimited _ delim _ =>
    match state, delim with
    | .Dollar, .Parenthesis => (false, .DollarParen)
    | .Pound, .Bracket | .PoundBang, .Bracket => (false, .Other)
    | .Ident, .Parenthesis | .Ident, .Bracket => (false, .Other)
    | _, _ => (true, .Other)

/-- Modelled from the spec: the pretty-print substrate (spec section 6) is an
external box-based printer; these are exactly the seven primitive operations
the renderer invokes on it, recorded as an output trace. -/
inductive POp
  | word (s : String)
  | space
  | hardbreak
  | cbox (indent : Nat)
  | ibox (indent : Nat)
  | zerobreak
  | break_offset_if_not_bol (n : Nat) (off : Int)
  | endBox
  deriving DecidableEq, BEq, Repr

/-- Modelled from the spec: the textual contribution of one pretty-printer
primitive in the fits-on-one-line discipline (boxes and optional breaks print
nothing, a space prints one blank, a hard break prints a newline). -/
def POp.text : POp → String
  | .word s => s
  | .space => " "
  | .hardbreak => "\n"
  | .cbox _ => ""
  | .ibox _ => ""
  | .zerobreak => ""
  | .break_offset_if_not_bol _ _ => ""
  | .endBox => ""

/-- Modelled from the spec: flushing the pretty-printer trace to the output
string (`printer.s.eof()`), concatenating each primitive's text. -/
def ppString : List POp → String
  | [] => ""
  | op :: rest => op.text ++ ppString rest

/-- Modelled from the spec: surface text of a binary-operator token. -/
def binOpToString : BinOpToken → String
  | .Plus => "+"
  | .Minus => "-"
  | .Star => "*"
  | .Slash => "/"
  | .Percent => "%"
  | .Caret => "^"
  | .And => "&"
  | .Or => "|"
  | .Shl => "<<"
  | .Shr => ">>"

/-- Modelled from the spec: `token_to_string` of the external pretty-printer
(`rustc_ast_pretty::pprust`) — "emit its textual form" —, mapping each token
kind to its surface text. -/
def token_to_string : TokenKind → String
  | .Eq => "="
  | .Lt => "<"
  | .Le => "<="
  | .EqEq => "=="
  | .Ne => "!="
  | .Ge => ">="
  | .Gt => ">"
  | .AndAnd => "&&"
  | .OrOr => "||"
  | .Not => "!"
  | .Tilde => "~"
  | .BinOp b => binOpToString b
  | .BinOpEq b => binOpToString b ++ "="
  | .At => "@"
  | .Dot => "."
  | .DotDot => ".."
  | .DotDotDot => "..."
  | .DotDotEq => "..="
  | .Comma => ","
  | .Semi => ";"
  | .Colon => ":"
  | .ModSep => "::"
  | .RArrow => "->"
  | .LArrow => "<-"
  | .FatArrow => "=>"
  | .Pound => "#"
  | .Dollar => "$"
  | .Question => "?"
  | .SingleQuote => "\x27"
  | .Literal text => text
  | .Ident name is_raw => if is_raw then "r#" ++ name else name
  | .Lifetime name => name
  | .DocComment .Line .Outer text => "///" ++ text
  | .DocComment .Line .Inner text => "//!" ++ text
  | .DocComment .Block .Outer text => "/**" ++ text ++ "*/"
  | .DocComment .Block .Inner text => "/*!" ++ text ++ "*/"

/-- Whether a token kind is a documentation comment
(`if let token::DocComment(..) = token.kind`). -/
def isDocCommentKind : TokenKind → Bool
  | .DocComment _ _ _ => true
  | _ => false

/-- Modelled from the spec: `token_kind_to_string(OpenDelim(delim))` of the
external pretty-printer — the opening bracket text (invisible delimiters
print nothing). -/
def openDelimStr : Delimiter → String
  | .Parenthesis => "("
  | .Brace => "\x7b"
  | .Bracket => "["
  | .Invisible => ""

/-- Modelled from the spec: `token_kind_to_string(CloseDelim(delim))` of the
external pretty-printer — the closing bracket text. -/
def closeDelimStr : Delimiter → String
  | .Parenthesis => ")"
  | .Brace => "\x7d"
  | .Bracket => "]"
  | .Invisible => ""

mutual

/-- `print_tt`: a token prints its text followed by a hard break when it is a
doc comment; a delimited group prints its opening bracket, then — only when
the inner stream is non-empty — brace padding, the inner stream from a fresh
`Start` state, brace padding again, and finally its closing bracket. -/
def print_tt (ctx : Ctx) : TokenTree → List POp
  | .Token tok _ =>
      POp.word (token_to_string tok.kind) ::
        (match tok.kind with
         | .DocComment _ _ _ => [POp.hardbreak]
         | _ => [])
  | .Delimited _ delim tts =>
      POp.word (openDelimStr delim) ::
        ((if tts.isEmpty then []
          else
            (if delim = Delimiter.Brace then [POp.space] else []) ++
            printTtsGo ctx State.Start tts ++
            (if delim = Delimiter.Brace then [POp.space] else [])) ++
         [POp.word (closeDelimStr delim)])

/-- The loop of `print_tts`, carrying the classifier state: before each
sibling, a space is emitted exactly when the carried state is not `Start` and
the transition says `needs_space`; then the sibling is printed and the state
advances. -/
def printTtsGo (ctx : Ctx) (state : State) : List TokenTree → List POp
  | [] => []
  | tt :: rest =>
      let needsSpaceNext := classify ctx state tt
      (if state != State.Start && needsSpaceNext.1 then [POp.space] else []) ++
      print_tt ctx tt ++
      printTtsGo ctx needsSpaceNext.2 rest

end

/-- `print_tts`: render a sibling stream starting from the `Start` state. -/
def print_tts (ctx : Ctx) (tts : TokenStream) : List POp :=
  printTtsGo ctx State.Start tts

/-- `snippet_equal_to_token`: look up the source snippet for the tree's span,
reparse it, and return the snippet only when it reparses to exactly one tree
that is `eq_unspanned`-equal to the argument. -/
def snippet_equal_to_token (ctx : Ctx) (matcher : TokenTree) : Option String :=
  Option.bind (ctx.spanToSnippet matcher.span) fun snippet =>
  Option.bind (ctx.reparse snippet) fun reparsed_trees =>
  match reparsed_trees with
  | [reparsed_tree] =>
      if eqUnspanned reparsed_tree matcher then some snippet else none
  | _ => none

/-- The pretty-printer trace of the synthesis path of `render_macro_matcher`:
`cbox(8); word "("; zerobreak; ibox(0);` the matcher's contents (a delimited
root contributes its inner stream, a bare token root is printed directly);
`end; break_offset_if_not_bol(0, -4); word ")"; end`. -/
def renderOps (ctx : Ctx) (matcher : TokenTree) : List POp :=
  POp.cbox 8 :: POp.word "(" :: POp.zerobreak :: POp.ibox 0 ::
    ((match matcher with
      | .Delimited _ _ tts => print_tts ctx tts
      | .Token _ _ => print_tt ctx matcher) ++
     [POp.endBox, POp.break_offset_if_not_bol 0 (-4), POp.word ")", POp.endBox])

/-- `render_macro_matcher`: return the verified source snippet when
available, otherwise flush the synthesis trace to a string. -/
def render_macro_matcher (ctx : Ctx) (matcher : TokenTree) : String :=
  match snippet_equal_to_token ctx matcher with
  | some snippet => snippet
  | none => ppString (renderOps ctx matcher)

/-- A context whose oracles all fail: no keyword knowledge, no source
mapping, no reparse.  Used to exercise the synthesis path on concrete
inputs. -/
def ctx0 : Ctx where
  is_used_keyword := fun _ _ => false
  is_unused_keyword := fun _ _ => false
  spanToSnippet := fun _ => none
  reparse := fun _ => none

/-- A one-token tree (a bare `$`), used as a concrete matcher. -/
def tree1 : TokenTree := .Token ⟨.Dollar, 0⟩ .Alone

/-- A context whose source map returns `"$"` for every span and whose parser
reparses every string to the single tree `$` (at a different span), so the
verbatim path succeeds on `tree1`. -/
def ctx1 : Ctx where
  is_used_keyword := fun _ _ => false
  is_unused_keyword := fun _ _ => false
  spanToSnippet := fun _ => some "$"
  reparse := fun _ => some [.Token ⟨.Dollar, 7⟩ .Joint]

/-- A context whose used-keyword oracle knows `match` and `fn`. -/
def ctx2 : Ctx where
  is_used_keyword := fun s _ => s = "match" || s = "fn"
  is_unused_keyword := fun _ _ => false
  spanToSnippet := fun _ => none
  reparse := fun _ => none

/-- The token tree for the identifier `a`. -/
def ttA : TokenTree := .Token ⟨.Ident "a" false, 0⟩ .Alone

/-- Characterization of the verifier's success: it returns `some s` exactly
when the source lookup yields `s`, the reparse of `s` yields exactly one tree,
and that tree is `eq_unspanned`-equal to the matcher. -/
theorem snippet_eq_some_iff (ctx : Ctx) (matcher : TokenTree) (s : String) :
    snippet_equal_to_token ctx matcher = some s ↔
      (ctx.spanToSnippet matcher.span = some s ∧
        ∃ t, ctx.reparse s = some [t] ∧ eqUnspanned t matcher = true) := by
  unfold snippet_equal_to_token
  constructor
  · intro h
    rw [Option.bind_eq_some] at h
    obtain ⟨snippet, hsm, h⟩ := h
    rw [Option.bind_eq_some] at h
    obtain ⟨trees, hrp, h⟩ := h
    match trees, h with
    | [t], h =>
      have h2 : (if eqUnspanned t matcher = true then some snippet else none) = some s := h
      by_cases het : eqUnspanned t matcher = true
      · rw [if_pos het] at h2
        injection h2 with hss
        subst hss
        exact ⟨hsm, t, hrp, het⟩
      · rw [if_neg het] at h2
        cases h2
    | [], h =>
      have h2 : (none : Option String) = some s := h
      cases h2
    | t :: u :: rest, h =>
      have h2 : (none : Option String) = some s := h
      cases h2
  · rintro ⟨hsm, t, hrp, het⟩
    rw [Option.bind_eq_some]
    refine ⟨s, hsm, ?_⟩
    rw [Option.bind_eq_some]
    refine ⟨[t], hrp, ?_⟩
    show (if eqUnspanned t matcher = true then some s else none) = some s
    rw [if_pos het]

/-- C4: the verifier `snippet_equal_to_token` returns the snippet text exactly
when the source lookup for the tree's span succeeds, the snippet re-tokenizes
without error into exactly one top-level token tree, and that tree equals the
input tree ignoring spans; in every other case (lookup failure, parse error,
zero or more than one top-level tree, or structural mismatch) it returns
`none`. -/
theorem C4_snippet_iff (ctx : Ctx) (matcher : TokenTree) (s : String) :
    snippet_equal_to_token ctx matcher = some s ↔
      (ctx.spanToSnippet matcher.span = some s ∧
        ∃ t, ctx.reparse s = some [t] ∧ eqUnspanned t matcher = true) :=
  snippet_eq_some_iff ctx matcher s

/-- C4 witness: the characterization instantiated at a concrete context and
matcher, where the verifier succeeds with snippet `"$"`. -/
theorem C4_snippet_iff_witness :
    snippet_equal_to_token ctx1 tree1 = some "$" ↔
      (ctx1.spanToSnippet tree1.span = some "$" ∧
        ∃ t, ctx1.reparse "$" = some [t] ∧ eqUnspanned t tree1 = true) :=
  C4_snippet_iff ctx1 tree1 "$"

/-- C1: for every token tree whose span maps to available source text that
re-tokenizes to exactly one token tree structurally equal (ignoring spans) to
the input tree, `render_macro_matcher` takes the verbatim path — the verifier
returns that source text — and returns exactly that source text unchanged. -/
theorem C1_verbatim_preference (ctx : Ctx) (matcher reparsed : TokenTree) (s : String)
    (hsm : ctx.spanToSnippet matcher.span = some s)
    (hrp : ctx.reparse s = some [reparsed])
    (heq : eqUnspanned reparsed matcher = true) :
    snippet_equal_to_token ctx matcher = some s ∧ render_macro_matcher ctx matcher = s := by
  have hsnip : snippet_equal_to_token ctx matcher = some s :=
    (snippet_eq_some_iff ctx matcher s).mpr ⟨hsm, reparsed, hrp, heq⟩
  refine ⟨hsnip, ?_⟩
  unfold render_macro_matcher
  rw [hsnip]

/-- C1 witness: with a context whose source map returns `"$"` and whose
parser reparses it to the single tree `$`, the renderer returns `"$"`
verbatim. -/
theorem C1_verbatim_preference_witness :
    snippet_equal_to_token ctx1 tree1 = some "$" ∧
      render_macro_matcher ctx1 tree1 = "$" :=
  C1_verbatim_preference ctx1 tree1 (.Token ⟨.Dollar, 7⟩ .Joint) "$" rfl rfl (by decide)

/-- Unfolding `ppString` over a cons cell. -/
theorem ppString_cons (op : POp) (ops : List POp) :
    ppString (op :: ops) = op.text ++ ppString ops := rfl

/-- The synthesis trace always flushes to a string containing at least the
outer parentheses: its text has positive length. -/
theorem ppString_renderOps_pos (ctx : Ctx) (matcher : TokenTree) :
    0 < (ppString (renderOps ctx matcher)).length := by
  unfold renderOps
  rw [ppString_cons, ppString_cons]
  have h1 : (POp.cbox 8).text = "" := rfl
  have h2 : (POp.word "(").text = "(" := rfl
  rw [h1, h2, String.length_append, String.length_append]
  have h3 : ("" : String).length = 0 := rfl
  have h4 : "(".length = 1 := rfl
  rw [h3, h4]
  omega

/-- C3: `render_macro_matcher` is a total function: for every well-formed
token tree — including one built purely in memory whose span the source map
cannot resolve, and including a bare non-delimited root token — it terminates
(it is a Lean `def`, structurally recursive) and returns a non-empty string,
with no error surfaced to the caller.  The only assumption is a sanity
property of the external parser: no non-empty tree list is parsed out of the
empty string. -/
theorem C3_render_total (ctx : Ctx)
    (hre : ∀ s ts, ctx.reparse s = some ts → ts.length = 1 → s ≠ "")
    (matcher : TokenTree) :
    render_macro_matcher ctx matcher ≠ "" := by
  unfold render_macro_matcher
  cases hsnip : snippet_equal_to_token ctx matcher with
  | some snippet =>
    obtain ⟨-, t, hrt, -⟩ := (snippet_eq_some_iff ctx matcher snippet).mp hsnip
    exact hre snippet [t] hrt rfl
  | none =>
    intro h
    have h2 : ppString (renderOps ctx matcher) = "" := h
    have h3 := ppString_renderOps_pos ctx matcher
    rw [h2] at h3
    simp at h3

/-- C3 witness: the renderer applied, via the failing-oracle context, to a
bare non-delimited root token built purely in memory returns a non-empty
string. -/
theorem C3_render_total_witness : render_macro_matcher ctx0 tree1 ≠ "" :=
  C3_render_total ctx0
    (by
      intro s ts h
      have : (none : Option (List TokenTree)) = some ts := h
      cases this)
    tree1

/-- C6: `usually_needs_space_between_keyword_and_open_delim` returns `false`
for every identifier that is not a (used or currently-unused) keyword, returns
`false` exactly for the keywords `true`, `false`, `self`, `Self`, `fn`, `pub`
and `await`, and returns `true` for every other used or unused keyword —
stated as: the result is `true` exactly when the identifier is a keyword
outside that seven-element set.  Keyword-hood itself is the external
`rustc_span` predicate carried by the context. -/
theorem C6_keyword_policy (ctx : Ctx) (sym : Symbol) (sp : Span) :
    usually_needs_space_between_keyword_and_open_delim ctx sym sp = true ↔
      ((ctx.is_used_keyword sym sp || ctx.is_unused_keyword sym sp) = true ∧
        sym ∉ (["true", "false", "self", "Self", "fn", "pub", "await"] : List Symbol)) := by
  unfold usually_needs_space_between_keyword_and_open_delim
  by_cases hk : (ctx.is_used_keyword sym sp || ctx.is_unused_keyword sym sp) = true
  · simp only [hk, Bool.not_true, Bool.false_eq_true, if_false, if_true, true_and]
    split_ifs with h1 h2 h3 h4
    all_goals simp_all [List.mem_cons, List.mem_singleton]
    all_goals tauto
  · have hk2 : (ctx.is_used_keyword sym sp || ctx.is_unused_keyword sym sp) = false := by
      revert hk; cases ctx.is_used_keyword sym sp || ctx.is_unused_keyword sym sp <;> simp
    simp [hk2]

/-- C6 witness: with a keyword oracle that knows `match` and `fn`, the policy
says `true` for `match` (keyword outside the space-free set). -/
theorem C6_keyword_policy_witness :
    usually_needs_space_between_keyword_and_open_delim ctx2 "match" 0 = true ↔
      ((ctx2.is_used_keyword "match" 0 || ctx2.is_unused_keyword "match" 0) = true ∧
        "match" ∉ (["true", "false", "self", "Self", "fn", "pub", "await"] : List Symbol)) :=
  C6_keyword_policy ctx2 "match" 0

/-- C8: the per-node rendering contract of `print_tt`: a token renders as its
textual form followed immediately by a hard break exactly when it is a
documentation-comment token; a non-empty delimited group renders as its
opening bracket, a padding space before and after the inner sequence exactly
when the delimiter is the brace kind, the inner sequence from a fresh `Start`
state, and its closing bracket; an empty group renders as exactly the two
bracket texts with nothing between. -/
theorem C8_print_tt_contract (ctx : Ctx) :
    (∀ k sp spc, print_tt ctx (.Token ⟨k, sp⟩ spc) =
        POp.word (token_to_string k) ::
          (if isDocCommentKind k then [POp.hardbreak] else []))
  ∧ (∀ sp d tts, tts ≠ [] → print_tt ctx (.Delimited sp d tts) =
        [POp.word (openDelimStr d)] ++
        ((if d = Delimiter.Brace then [POp.space] else []) ++
         printTtsGo ctx State.Start tts ++
         (if d = Delimiter.Brace then [POp.space] else [])) ++
        [POp.word (closeDelimStr d)])
  ∧ (∀ sp d, print_tt ctx (.Delimited sp d []) =
        [POp.word (openDelimStr d), POp.word (closeDelimStr d)]) := by
  refine ⟨?_, ?_, ?_⟩
  · intro k sp spc
    cases k <;> rfl
  · intro sp d tts h
    rcases tts with _ | ⟨t, ts⟩
    · exact absurd rfl h
    · simp [print_tt]
  · intro sp d
    rfl

/-- C8 witness: a brace group with one identifier child renders with the
padding spaces around its inner sequence. -/
theorem C8_print_tt_contract_witness :
    print_tt ctx0 (.Delimited 0 Delimiter.Brace [ttA]) =
      [POp.word (openDelimStr Delimiter.Brace)] ++
      ((if Delimiter.Brace = Delimiter.Brace then [POp.space] else []) ++
       printTtsGo ctx0 State.Start [ttA] ++
       (if Delimiter.Brace = Delimiter.Brace then [POp.space] else [])) ++
      [POp.word (closeDelimStr Delimiter.Brace)] :=
  (C8_print_tt_contract ctx0).2.1 0 Delimiter.Brace [ttA] (List.cons_ne_nil ttA [])

/-- C9: the space-emission invariant of the sibling traversal: before each
node a separating space is emitted exactly when the classifier's `needs_space`
is true and the state carried into that node is not `Start`; the very first
sibling of a sequence (which always starts at `Start`) is never preceded by a
space — the trace begins with a `word`; and every nested group's inner
sequence is rendered from a fresh `Start` state. -/
theorem C9_space_invariant (ctx : Ctx) :
    (∀ st tt rest, printTtsGo ctx st (tt :: rest) =
        (if st != State.Start && (classify ctx st tt).1 then [POp.space] else []) ++
        print_tt ctx tt ++ printTtsGo ctx (classify ctx st tt).2 rest)
  ∧ (∀ tt rest, ∃ s l, print_tts ctx (tt :: rest) = POp.word s :: l)
  ∧ (∀ sp d tts, print_tt ctx (.Delimited sp d tts) =
        POp.word (openDelimStr d) ::
          ((if tts.isEmpty then []
            else (if d = Delimiter.Brace then [POp.space] else []) ++
                 printTtsGo ctx State.Start tts ++
                 (if d = Delimiter.Brace then [POp.space] else [])) ++
           [POp.word (closeDelimStr d)])) := by
  refine ⟨?_, ?_, ?_⟩
  · intro st tt rest
    rfl
  · intro tt rest
    cases tt with
    | Token tok spc => exact ⟨token_to_string tok.kind, _, rfl⟩
    | Delimited sp d tts => exact ⟨openDelimStr d, _, rfl⟩
  · intro sp d tts
    rfl

/-- C10: root delimiter replacement — whenever the synthesis path runs and
the root is a delimited group, the output wraps the rendering of the group's
children between the fixed `(` and `)` of the outer box shell: the right-hand
side below mentions neither the root's delimiter kind (its bracket characters
are never emitted) nor any brace padding at the root. -/
theorem C10_root_paren (ctx : Ctx) (sp : Span) (d : Delimiter) (tts : List TokenTree)
    (h : snippet_equal_to_token ctx (.Delimited sp d tts) = none) :
    render_macro_matcher ctx (.Delimited sp d tts) =
      ppString (POp.cbox 8 :: POp.word "(" :: POp.zerobreak :: POp.ibox 0 ::
        (print_tts ctx tts ++
         [POp.endBox, POp.break_offset_if_not_bol 0 (-4), POp.word ")", POp.endBox])) := by
  unfold render_macro_matcher
  rw [h]
  rfl

/-- C10 witness: a brace-delimited root with one identifier child, whose span
has no source mapping, renders between parentheses with no brace padding. -/
theorem C10_root_paren_witness :
    render_macro_matcher ctx0 (.Delimited 0 Delimiter.Brace [ttA]) =
      ppString (POp.cbox 8 :: POp.word "(" :: POp.zerobreak :: POp.ibox 0 ::
        (print_tts ctx0 [ttA] ++
         [POp.endBox, POp.break_offset_if_not_bol 0 (-4), POp.word ")", POp.endBox])) :=
  C10_root_paren ctx0 0 Delimiter.Brace [ttA] rfl

/-- Tight pair `$name`: from any state other than `DollarParen`, a `$` token
advances to `Dollar` and the following identifier is emitted with no space
between the two parts. -/
theorem tight_dollar_ident (ctx : Ctx) (st : State) (h : st ≠ State.DollarParen)
    (sp1 sp2 : Span) (spc1 spc2 : Spacing) (n : Symbol) (r : Bool)
    (rest : List TokenTree) :
    printTtsGo ctx st
        (.Token ⟨.Dollar, sp1⟩ spc1 :: .Token ⟨.Ident n r, sp2⟩ spc2 :: rest) =
      (if st = State.Start then [] else [POp.space]) ++
      POp.word "$" :: POp.word (token_to_string (.Ident n r)) ::
        printTtsGo ctx State.DollarIdent rest := by
  cases st <;> simp_all [printTtsGo, classify, print_tt] <;> rfl

/-- Tight chain `$name:frag`: from any state other than `DollarParen`, the
four tokens are emitted with no space anywhere between them. -/
theorem tight_dollar_fragment (ctx : Ctx) (st : State) (h : st ≠ State.DollarParen)
    (sp1 sp2 sp3 sp4 : Span) (spc1 spc2 spc3 spc4 : Spacing)
    (n : Symbol) (r : Bool) (f : Symbol) (rf : Bool) (rest : List TokenTree) :
    printTtsGo ctx st
        (.Token ⟨.Dollar, sp1⟩ spc1 :: .Token ⟨.Ident n r, sp2⟩ spc2 ::
         .Token ⟨.Colon, sp3⟩ spc3 :: .Token ⟨.Ident f rf, sp4⟩ spc4 :: rest) =
      (if st = State.Start then [] else [POp.space]) ++
      POp.word "$" :: POp.word (token_to_string (.Ident n r)) ::
        POp.word ":" :: POp.word (token_to_string (.Ident f rf)) ::
          printTtsGo ctx State.Other rest := by
  cases st <;> simp_all [printTtsGo, classify, print_tt] <;> rfl

/-- Tight pair `#[...]`: from any state other than `DollarParen`, a `#` token
advances to `Pound` and the following bracket group is emitted with no space
after the `#`. -/
theorem tight_pound_bracket (ctx : Ctx) (st : State) (h : st ≠ State.DollarParen)
    (sp1 sp2 : Span) (spc1 : Spacing) (tts : List TokenTree) (rest : List TokenTree) :
    printTtsGo ctx st
        (.Token ⟨.Pound, sp1⟩ spc1 :: .Delimited sp2 Delimiter.Bracket tts :: rest) =
      (if st = State.Start then [] else [POp.space]) ++
      POp.word "#" ::
        (print_tt ctx (.Delimited sp2 Delimiter.Bracket tts) ++
         printTtsGo ctx State.Other rest) := by
  cases st <;> simp_all [printTtsGo, classify, print_tt] <;> rfl

/-- Tight chain `#![...]`: from any state other than `DollarParen`, `#`, `!`
and the bracket group are emitted with no space anywhere between them. -/
theorem tight_pound_bang_bracket (ctx : Ctx) (st : State) (h : st ≠ State.DollarParen)
    (sp1 sp2 sp3 : Span) (spc1 spc2 : Spacing) (tts : List TokenTree)
    (rest : List TokenTree) :
    printTtsGo ctx st
        (.Token ⟨.Pound, sp1⟩ spc1 :: .Token ⟨.Not, sp2⟩ spc2 ::
         .Delimited sp3 Delimiter.Bracket tts :: rest) =
      (if st = State.Start then [] else [POp.space]) ++
      POp.word "#" :: POp.word "!" ::
        (print_tt ctx (.Delimited sp3 Delimiter.Bracket tts) ++
         printTtsGo ctx State.Other rest) := by
  cases st <;> simp_all [printTtsGo, classify, print_tt] <;> rfl

/-- Tight pairs `f(...)` and `f[...]`: from any state other than `Dollar`,
`DollarIdentColon` and `DollarParen`, a non-raw identifier with space-free
keyword policy advances to `Ident` and the following parenthesis or bracket
group is emitted with no space after the identifier. -/
theorem tight_ident_delim (ctx : Ctx) (st : State)
    (h1 : st ≠ State.Dollar) (h2 : st ≠ State.DollarIdentColon)
    (h3 : st ≠ State.DollarParen)
    (n : Symbol) (sp1 sp2 : Span) (spc1 : Spacing) (d : Delimiter)
    (tts : List TokenTree) (rest : List TokenTree)
    (husual : usually_needs_space_between_keyword_and_open_delim ctx n sp1 = false)
    (hd : d = Delimiter.Parenthesis ∨ d = Delimiter.Bracket) :
    printTtsGo ctx st
        (.Token ⟨.Ident n false, sp1⟩ spc1 :: .Delimited sp2 d tts :: rest) =
      (if st = State.Start then [] else [POp.space]) ++
      POp.word (token_to_string (.Ident n false)) ::
        (print_tt ctx (.Delimited sp2 d tts) ++ printTtsGo ctx State.Other rest) := by
  rcases hd with rfl | rfl <;>
    cases st <;> simp_all [printTtsGo, classify, print_tt] <;> rfl

/-- C5 counterexample: the claim fails when the first token of a tight pair
immediately follows a `$(...)` group — it is then consumed as a repetition
separator (state `DollarParenSep`).  Concretely, for the sibling sequence
`$ ( a ) $ x` the synthesized trace inserts a space inside the trailing
`$x` pair, rendering `"$(a)$ x"`. -/
theorem C5_counterexample :
    print_tts ctx0
        [.Token ⟨.Dollar, 0⟩ .Alone,
         .Delimited 1 Delimiter.Parenthesis [ttA],
         .Token ⟨.Dollar, 2⟩ .Alone,
         .Token ⟨.Ident "x" false, 3⟩ .Alone] =
      [POp.word "$", POp.word "(", POp.word "a", POp.word ")",
       POp.word "$", POp.space, POp.word "x"] ∧
    ppString (print_tts ctx0
        [.Token ⟨.Dollar, 0⟩ .Alone,
         .Delimited 1 Delimiter.Parenthesis [ttA],
         .Token ⟨.Dollar, 2⟩ .Alone,
         .Token ⟨.Ident "x" false, 3⟩ .Alone]) = "$(a)$ x" :=
  ⟨rfl, rfl⟩

/-- C5 (amended): for any identifier/fragment substitutions, the adjacencies
`$name`, `$name:frag`, `#![...]`, `#[...]`, `f(...)` and `f[...]` render with
zero inserted space between their parts, provided the head token of the pair
is not read in classifier state `DollarParen` (where it is consumed as a
repetition separator) — and, for the identifier-headed pairs, also not in
states `Dollar` or `DollarIdentColon` (where the identifier is a metavariable
name or a fragment specifier). -/
theorem C5_tight_pairs_amended (ctx : Ctx) (st : State) (h : st ≠ State.DollarParen) :
    (∀ sp1 sp2 spc1 spc2 n r rest,
        printTtsGo ctx st
            (.Token ⟨.Dollar, sp1⟩ spc1 :: .Token ⟨.Ident n r, sp2⟩ spc2 :: rest) =
          (if st = State.Start then [] else [POp.space]) ++
          POp.word "$" :: POp.word (token_to_string (.Ident n r)) ::
            printTtsGo ctx State.DollarIdent rest)
  ∧ (∀ sp1 sp2 sp3 sp4 spc1 spc2 spc3 spc4 n r f rf rest,
        printTtsGo ctx st
            (.Token ⟨.Dollar, sp1⟩ spc1 :: .Token ⟨.Ident n r, sp2⟩ spc2 ::
             .Token ⟨.Colon, sp3⟩ spc3 :: .Token ⟨.Ident f rf, sp4⟩ spc4 :: rest) =
          (if st = State.Start then [] else [POp.space]) ++
          POp.word "$" :: POp.word (token_to_string (.Ident n r)) ::
            POp.word ":" :: POp.word (token_to_string (.Ident f rf)) ::
              printTtsGo ctx State.Other rest)
  ∧ (∀ sp1 sp2 spc1 tts rest,
        printTtsGo ctx st
            (.Token ⟨.Pound, sp1⟩ spc1 :: .Delimited sp2 Delimiter.Bracket tts :: rest) =
          (if st = State.Start then [] else [POp.space]) ++
          POp.word "#" ::
            (print_tt ctx (.Delimited sp2 Delimiter.Bracket tts) ++
             printTtsGo ctx State.Other rest))
  ∧ (∀ sp1 sp2 sp3 spc1 spc2 tts rest,
        printTtsGo ctx st
            (.Token ⟨.Pound, sp1⟩ spc1 :: .Token ⟨.Not, sp2⟩ spc2 ::
             .Delimited sp3 Delimiter.Bracket tts :: rest) =
          (if st = State.Start then [] else [POp.space]) ++
          POp.word "#" :: POp.word "!" ::
            (print_tt ctx (.Delimited sp3 Delimiter.Bracket tts) ++
             printTtsGo ctx State.Other rest))
  ∧ (∀ n sp1 sp2 spc1 d tts rest, st ≠ State.Dollar → st ≠ State.DollarIdentColon →
        usually_needs_space_between_keyword_and_open_delim ctx n sp1 = false →
        (d = Delimiter.Parenthesis ∨ d = Delimiter.Bracket) →
        printTtsGo ctx st
            (.Token ⟨.Ident n false, sp1⟩ spc1 :: .Delimited sp2 d tts :: rest) =
          (if st = State.Start then [] else [POp.space]) ++
          POp.word (token_to_string (.Ident n false)) ::
            (print_tt ctx (.Delimited sp2 d tts) ++ printTtsGo ctx State.Other rest)) :=
  ⟨fun sp1 sp2 spc1 spc2 n r rest =>
      tight_dollar_ident ctx st h sp1 sp2 spc1 spc2 n r rest,
   fun sp1 sp2 sp3 sp4 spc1 spc2 spc3 spc4 n r f rf rest =>
      tight_dollar_fragment ctx st h sp1 sp2 sp3 sp4 spc1 spc2 spc3 spc4 n r f rf rest,
   fun sp1 sp2 spc1 tts rest =>
      tight_pound_bracket ctx st h sp1 sp2 spc1 tts rest,
   fun sp1 sp2 sp3 spc1 spc2 tts rest =>
      tight_pound_bang_bracket ctx st h sp1 sp2 sp3 spc1 spc2 tts rest,
   fun n sp1 sp2 spc1 d tts rest h1 h2 husual hd =>
      tight_ident_delim ctx st h1 h2 h n sp1 sp2 spc1 d tts rest husual hd⟩

/-- C5 witness: the `$name` pair read from state `Other` (mid-sequence, not
after a `$(...)` group) renders with a space before the `$` but none inside
the pair. -/
theorem C5_tight_pairs_amended_witness :
    printTtsGo ctx0 State.Other
        (.Token ⟨.Dollar, 0⟩ .Alone :: .Token ⟨.Ident "x" false, 1⟩ .Alone :: []) =
      (if State.Other = State.Start then [] else [POp.space]) ++
      POp.word "$" :: POp.word (token_to_string (.Ident "x" false)) ::
        printTtsGo ctx0 State.DollarIdent [] :=
  (C5_tight_pairs_amended ctx0 State.Other (by decide)).1 0 1 .Alone .Alone "x" false []

/-- C7 counterexample: a raw identifier (`r#foo`) is an identifier token that
is not a keyword, yet in state `Other` the classifier sends it to state
`Other`, not `Ident` — the guarded identifier row only matches non-raw
identifiers — so a following `(...)` group would be preceded by a space. -/
theorem C7_counterexample :
    classify ctx0 State.Other (.Token ⟨.Ident "foo" true, 0⟩ .Alone) =
        (true, State.Other) ∧
      ((true, State.Other) : Bool × State) ≠ (true, State.Ident) :=
  ⟨rfl, by decide⟩

/-- C7 (amended): in every classifier state not captured by an earlier row
(`Dollar`, `DollarIdentColon`, `DollarParen`), a NON-RAW identifier token for
which the keyword-adjacency policy returns `false` (every non-keyword, and the
space-free keywords) yields `needs_space = true` and moves the classifier to
`Ident`; and from `Ident`, a parenthesis or bracket group is classified with
no preceding space. -/
theorem C7_ident_row_amended (ctx : Ctx) (st : State)
    (h1 : st ≠ State.Dollar) (h2 : st ≠ State.DollarIdentColon)
    (h3 : st ≠ State.DollarParen) :
    (∀ n sp spc, usually_needs_space_between_keyword_and_open_delim ctx n sp = false →
        classify ctx st (.Token ⟨.Ident n false, sp⟩ spc) = (true, State.Ident))
  ∧ (∀ sp d tts, (d = Delimiter.Parenthesis ∨ d = Delimiter.Bracket) →
        classify ctx State.Ident (.Delimited sp d tts) = (false, State.Other)) := by
  constructor
  · intro n sp spc husual
    cases st <;> simp_all [classify]
  · rintro sp d tts (rfl | rfl) <;> rfl

/-- C7 witness: with the all-failing oracle context, `f` is not a keyword, so
from `Other` the classifier yields `(true, Ident)`, and a parenthesis group
after `Ident` yields `(false, Other)`. -/
theorem C7_ident_row_amended_witness :
    classify ctx0 State.Other (.Token ⟨.Ident "f" false, 0⟩ .Alone) =
        (true, State.Ident) ∧
      classify ctx0 State.Ident (.Delimited 1 Delimiter.Parenthesis []) =
        (false, State.Other) :=
  ⟨(C7_ident_row_amended ctx0 State.Other (by decide) (by decide) (by decide)).1
      "f" 0 .Alone rfl,
   (C7_ident_row_amended ctx0 State.Other (by decide) (by decide) (by decide)).2
      1 Delimiter.Parenthesis [] (Or.inl rfl)⟩

end RenderMacroMatchers
